import Mathlib

/-!
# Grafana datasource config map: assembly and reconciliation

A shallow embedding of `pkg/controller/model/grafana_datasource.go`:

* `GrafanaDatasourceConfig` reads three secret files, injects them into the
  descriptor of the owning resource, serialises the versioned envelope with
  `json.Marshal`, fingerprints the bytes with MD5 and builds a config map;
* `ReconciledGrafanaDatasource` compares the fingerprint with the annotation
  of the stored config map and replaces payload and annotation when they differ.

Go strings are byte strings, so they are lists of byte values here.  A Go map
may be nil: reading a nil map yields the zero value, writing to it panics.  A
call either returns its pair `(config map, error)` or panics; the owning
resource is reached through a pointer, so every call also yields the state
in which it leaves that resource.
-/

set_option autoImplicit false

namespace GrafanaOperator

/-! ## Go values -/

/-- A Go string: an arbitrary sequence of bytes (values below 256). -/
abbrev GoString := List Nat

/-- The bytes of an ASCII literal of the source. -/
def goStr (s : String) : GoString := s.toList.map Char.toNat

/-- A Go `error` value. -/
structure GoError where
  msg : String
  deriving DecidableEq, Repr

/-- A Go `map[string]string`; `none` is the nil map. -/
abbrev GoMap := Option (List (GoString × GoString))

/-- Go `m[k]` as an expression: the zero value when the key is missing or the map is nil. -/
def GoMap.index (m : GoMap) (k : GoString) : GoString :=
  match m with
  | none => []
  | some entries =>
    match entries.find? (fun e => e.1 == k) with
    | some e => e.2
    | none => []

/-- Replaces the value stored under `k`, or adds the entry when the key is new. -/
def assignEntry (k v : GoString) : List (GoString × GoString) → List (GoString × GoString)
  | [] => [(k, v)]
  | e :: rest => if e.1 == k then (k, v) :: rest else e :: assignEntry k v rest

/-- Go `m[k] = v`: `none` stands for the run-time panic "assignment to entry in nil map". -/
def GoMap.assign (m : GoMap) (k v : GoString) : Option GoMap :=
  match m with
  | none => none
  | some entries => some (some (assignEntry k v entries))

/-- The ways a call can panic. -/
inductive Panic where
  | nilMapAssignment
  | nilDereference
  deriving DecidableEq, Repr

/-- How a Go call ends: it returns its results, or it panics. -/
inductive Outcome (α : Type) where
  | returns (results : α)
  | panics (cause : Panic)
  deriving DecidableEq, Repr

/-! ## `encoding/json` -/

/-- The constant `utf8.RuneError`. -/
def RuneError : Nat := 0xFFFD

/-- The table `utf8.first` for a leading byte of a multi-byte sequence: the length of the
sequence and the range accepted for its second byte; `none` for an invalid leading byte. -/
def firstInfo (b : Nat) : Option (Nat × Nat × Nat) :=
  if 0xC2 ≤ b ∧ b ≤ 0xDF then some (2, 0x80, 0xBF)
  else if b = 0xE0 then some (3, 0xA0, 0xBF)
  else if 0xE1 ≤ b ∧ b ≤ 0xEC then some (3, 0x80, 0xBF)
  else if b = 0xED then some (3, 0x80, 0x9F)
  else if 0xEE ≤ b ∧ b ≤ 0xEF then some (3, 0x80, 0xBF)
  else if b = 0xF0 then some (4, 0x90, 0xBF)
  else if 0xF1 ≤ b ∧ b ≤ 0xF3 then some (4, 0x80, 0xBF)
  else if b = 0xF4 then some (4, 0x80, 0x8F)
  else none

/-- Go `utf8.DecodeRuneInString`: the first rune of `s` and its width in bytes;
`(RuneError, 1)` for an invalid encoding, `(RuneError, 0)` for the empty string. -/
def decodeRune (s : GoString) : Nat × Nat :=
  match s with
  | [] => (RuneError, 0)
  | s0 :: t =>
    if s0 < 0x80 then (s0, 1)
    else
      match firstInfo s0 with
      | none => (RuneError, 1)
      | some (sz, lo, hi) =>
        if s.length < sz then (RuneError, 1)
        else
          match t with
          | [] => (RuneError, 1)
          | s1 :: t1 =>
            if s1 < lo ∨ hi < s1 then (RuneError, 1)
            else if sz ≤ 2 then (((s0 &&& 0x1F) <<< 6) ||| (s1 &&& 0x3F), 2)
            else
              match t1 with
              | [] => (RuneError, 1)
              | s2 :: t2 =>
                if s2 < 0x80 ∨ 0xBF < s2 then (RuneError, 1)
                else if sz ≤ 3 then
                  (((s0 &&& 0x0F) <<< 12) ||| ((s1 &&& 0x3F) <<< 6) ||| (s2 &&& 0x3F), 3)
                else
                  match t2 with
                  | [] => (RuneError, 1)
                  | s3 :: _ =>
                    if s3 < 0x80 ∨ 0xBF < s3 then (RuneError, 1)
                    else
                      (((s0 &&& 0x07) <<< 18) ||| ((s1 &&& 0x3F) <<< 12)
                        ||| ((s2 &&& 0x3F) <<< 6) ||| (s3 &&& 0x3F), 4)

/-- The digit `"0123456789abcdef"[n]`. -/
def hexDigit (n : Nat) : Nat := if n < 10 then 48 + n else 87 + n

/-- The table `htmlSafeSet`: the ASCII bytes `json.Marshal` copies unescaped. -/
def htmlSafe (b : Nat) : Bool :=
  decide (0x20 ≤ b) && decide (b < 0x80) && b != 0x22 && b != 0x5C && b != 0x3C
    && b != 0x3E && b != 0x26

/-- What the encoder writes for one ASCII byte: the byte itself, a two-character escape, or
`\u00XX` for the remaining control characters and for `<`, `>`, `&`. -/
def escapeByte (b : Nat) : GoString :=
  if htmlSafe b then [b]
  else if b = 0x5C ∨ b = 0x22 then [0x5C, b]
  else if b = 0x0A then [0x5C, 0x6E]
  else if b = 0x0D then [0x5C, 0x72]
  else if b = 0x09 then [0x5C, 0x74]
  else [0x5C, 0x75, 0x30, 0x30, hexDigit (b >>> 4), hexDigit (b &&& 0xF)]

/-- The loop of the encoder's `string` method over the bytes of `s`.  `pending` bytes still
belong to the rune decoded last: they are copied (`keep`) or were already written as an
escape.  An invalid byte is written as the escape of U+FFFD; U+2028 and U+2029 are always escaped. -/
def encodeRunes : Nat → Bool → GoString → GoString
  | _, _, [] => []
  | k + 1, keep, b :: rest => (if keep then [b] else []) ++ encodeRunes k keep rest
  | 0, _, b :: rest =>
    if b < 0x80 then escapeByte b ++ encodeRunes 0 true rest
    else if (decodeRune (b :: rest)).1 = RuneError ∧ (decodeRune (b :: rest)).2 = 1 then
      [0x5C, 0x75, 0x66, 0x66, 0x66, 0x64] ++ encodeRunes 0 true rest
    else if (decodeRune (b :: rest)).1 = 0x2028 ∨ (decodeRune (b :: rest)).1 = 0x2029 then
      [0x5C, 0x75, 0x32, 0x30, 0x32, hexDigit ((decodeRune (b :: rest)).1 &&& 0xF)]
        ++ encodeRunes ((decodeRune (b :: rest)).2 - 1) false rest
    else b :: encodeRunes ((decodeRune (b :: rest)).2 - 1) true rest

/-- A Go string as `json.Marshal` renders it: quoted, escaped, coerced to valid UTF-8. -/
def encodeString (s : GoString) : GoString :=
  [0x22] ++ encodeRunes 0 true s ++ [0x22]

/-- A Go `int` as `json.Marshal` renders it: decimal digits. -/
def encodeInt (i : Int) : GoString := goStr (toString i)

/-- A Go `bool` as `json.Marshal` renders it. -/
def encodeBool (b : Bool) : GoString := if b then goStr "true" else goStr "false"

/-- The members of a JSON object, separated by commas. -/
def joinMembers : List GoString → GoString
  | [] => []
  | [m] => m
  | m :: rest => m ++ [0x2C] ++ joinMembers rest

/-- One member of a JSON object: the quoted key, a colon, the rendered value. -/
def member (key : String) (value : GoString) : GoString :=
  encodeString (goStr key) ++ [0x3A] ++ value

/-- A JSON object from its rendered members. -/
def encodeObject (members : List GoString) : GoString :=
  [0x7B] ++ joinMembers members ++ [0x7D]

/-! ## Valid UTF-8 and the inverse of the string encoder -/

/-- Go `utf8.ValidString`, in the shape of the encoder's loop: no position at which
`DecodeRuneInString` reports an invalid byte.  `pending` bytes belong to the rune decoded
last. -/
def validRunes : Nat → GoString → Bool
  | 0, [] => true
  | _ + 1, [] => false
  | k + 1, _ :: rest => validRunes k rest
  | 0, b :: rest =>
    if b < 0x80 then validRunes 0 rest
    else if (decodeRune (b :: rest)).1 = RuneError ∧ (decodeRune (b :: rest)).2 = 1 then false
    else validRunes ((decodeRune (b :: rest)).2 - 1) rest

/-- A Go string that is valid UTF-8. -/
def validUTF8 (s : GoString) : Bool := validRunes 0 s

/-- The value of a lowercase hexadecimal digit. -/
def unhex (d : Nat) : Nat := if d < 58 then d - 48 else d - 87

/-- Reads an encoded string body up to its closing quote and undoes the escapes the encoder
writes: the decoded bytes and what follows the quote. -/
def unescape : GoString → Option (GoString × GoString)
  | [] => none
  | c :: rest =>
    if c = 0x22 then some ([], rest)
    else if c = 0x5C then
      match rest with
      | [] => none
      | e :: rest1 =>
        if e = 0x75 then
          match rest1 with
          | h1 :: _ :: h3 :: h4 :: rest2 =>
            if h1 = 0x30 then
              (unescape rest2).map (fun p => ((unhex h3 * 16 + unhex h4) :: p.1, p.2))
            else
              (unescape rest2).map (fun p => (0xE2 :: 0x80 :: (0xA0 + unhex h4) :: p.1, p.2))
          | _ => none
        else if e = 0x6E then (unescape rest1).map (fun p => (0x0A :: p.1, p.2))
        else if e = 0x72 then (unescape rest1).map (fun p => (0x0D :: p.1, p.2))
        else if e = 0x74 then (unescape rest1).map (fun p => (0x09 :: p.1, p.2))
        else (unescape rest1).map (fun p => (e :: p.1, p.2))
    else (unescape rest).map (fun p => (c :: p.1, p.2))

/-! ## `crypto/md5` and `fmt` -/

/-- Rotation of a 32-bit word to the left. -/
def rotl32 (x c : Nat) : Nat :=
  ((x <<< c) ||| (x >>> (32 - c))) % 2 ^ 32

/-- Bitwise complement of a 32-bit word. -/
def not32 (x : Nat) : Nat := (x % 2 ^ 32) ^^^ 0xFFFFFFFF

/-- The per-round shift amounts of MD5. -/
def md5Shifts : List Nat :=
  [7, 12, 17, 22, 7, 12, 17, 22, 7, 12, 17, 22, 7, 12, 17, 22,
   5, 9, 14, 20, 5, 9, 14, 20, 5, 9, 14, 20, 5, 9, 14, 20,
   4, 11, 16, 23, 4, 11, 16, 23, 4, 11, 16, 23, 4, 11, 16, 23,
   6, 10, 15, 21, 6, 10, 15, 21, 6, 10, 15, 21, 6, 10, 15, 21]

/-- The additive constants of MD5, `floor(2^32 * |sin(i + 1)|)`. -/
def md5Table : List Nat :=
  [0xd76aa478, 0xe8c7b756, 0x242070db, 0xc1bdceee,
   0xf57c0faf, 0x4787c62a, 0xa8304613, 0xfd469501,
   0x698098d8, 0x8b44f7af, 0xffff5bb1, 0x895cd7be,
   0x6b901122, 0xfd987193, 0xa679438e, 0x49b40821,
   0xf61e2562, 0xc040b340, 0x265e5a51, 0xe9b6c7aa,
   0xd62f105d, 0x02441453, 0xd8a1e681, 0xe7d3fbc8,
   0x21e1cde6, 0xc33707d6, 0xf4d50d87, 0x455a14ed,
   0xa9e3e905, 0xfcefa3f8, 0x676f02d9, 0x8d2a4c8a,
   0xfffa3942, 0x8771f681, 0x6d9d6122, 0xfde5380c,
   0xa4beea44, 0x4bdecfa9, 0xf6bb4b60, 0xbebfbc70,
   0x289b7ec6, 0xeaa127fa, 0xd4ef3085, 0x04881d05,
   0xd9d4d039, 0xe6db99e5, 0x1fa27cf8, 0xc4ac5665,
   0xf4292244, 0x432aff97, 0xab9423a7, 0xfc93a039,
   0x655b59c3, 0x8f0ccc92, 0xffeff47d, 0x85845dd1,
   0x6fa87e4f, 0xfe2ce6e0, 0xa3014314, 0x4e0811a1,
   0xf7537e82, 0xbd3af235, 0x2ad7d2bb, 0xeb86d391]

/-- The chaining value of MD5: four 32-bit words. -/
structure MD5State where
  a : Nat
  b : Nat
  c : Nat
  d : Nat
  deriving DecidableEq, Repr

/-- The initial chaining value. -/
def md5Init : MD5State := ⟨0x67452301, 0xefcdab89, 0x98badcfe, 0x10325476⟩

/-- The little-endian 32-bit word at word index `g` of a block. -/
def wordAt (block : List Nat) (g : Nat) : Nat :=
  (block.getD (4 * g) 0 % 256) + (block.getD (4 * g + 1) 0 % 256) * 2 ^ 8
    + (block.getD (4 * g + 2) 0 % 256) * 2 ^ 16 + (block.getD (4 * g + 3) 0 % 256) * 2 ^ 24

/-- One of the 64 steps of the MD5 compression function. -/
def md5Step (block : List Nat) (s : MD5State) (i : Nat) : MD5State :=
  let f :=
    if i < 16 then (s.b &&& s.c) ||| (not32 s.b &&& s.d)
    else if i < 32 then (s.d &&& s.b) ||| (not32 s.d &&& s.c)
    else if i < 48 then s.b ^^^ s.c ^^^ s.d
    else s.c ^^^ (s.b ||| not32 s.d)
  let g :=
    if i < 16 then i
    else if i < 32 then (5 * i + 1) % 16
    else if i < 48 then (3 * i + 5) % 16
    else (7 * i) % 16
  let sum := (f + s.a + md5Table.getD i 0 + wordAt block g) % 2 ^ 32
  ⟨s.d, (s.b + rotl32 sum (md5Shifts.getD i 0)) % 2 ^ 32, s.b, s.c⟩

/-- The compression function: 64 steps over one 64-byte block, then the feed-forward. -/
def md5Block (s : MD5State) (block : List Nat) : MD5State :=
  let t := (List.range 64).foldl (md5Step block) s
  ⟨(s.a + t.a) % 2 ^ 32, (s.b + t.b) % 2 ^ 32, (s.c + t.c) % 2 ^ 32, (s.d + t.d) % 2 ^ 32⟩

/-- The compression of `n` consecutive 64-byte blocks of `msg`. -/
def md5Blocks : Nat → MD5State → List Nat → MD5State
  | 0, s, _ => s
  | n + 1, s, msg => md5Blocks n (md5Block s (msg.take 64)) (msg.drop 64)

/-- The `n` low bytes of `x`, least significant first. -/
def leBytes : Nat → Nat → List Nat
  | 0, _ => []
  | n + 1, x => x % 256 :: leBytes n (x / 256)

/-- The message followed by the MD5 padding: a byte 0x80, zero bytes up to 56 modulo 64, and
the length in bits as a 64-bit little-endian number. -/
def md5Pad (msg : List Nat) : List Nat :=
  msg ++ [0x80] ++ List.replicate ((119 - msg.length % 64) % 64) 0
    ++ leBytes 8 ((8 * msg.length) % 2 ^ 64)

/-- The 16-byte MD5 digest of a message: what `hash.Sum(nil)` returns after the message was
written to `md5.New()`. -/
def md5Sum (msg : GoString) : GoString :=
  let s := md5Blocks ((md5Pad msg).length / 64) md5Init (md5Pad msg)
  leBytes 4 s.a ++ leBytes 4 s.b ++ leBytes 4 s.c ++ leBytes 4 s.d

/-- Go `fmt.Sprintf("%x", bytes)`: two lowercase hexadecimal digits per byte. -/
def sprintfHex : GoString → GoString
  | [] => []
  | b :: rest => hexDigit (b / 16 % 16) :: hexDigit (b % 16) :: sprintfHex rest

/-! ## The owning resource and the config map -/

/-- Modelled from the spec: the declaration of the descriptor type `v1alpha1.GrafanaDatasource`
is not among the sources.  The spec calls the descriptor "the logical data-source definition
(connection parameters, auth mode, TLS flags)"; a parameter is a string, an integer or a
flag. -/
inductive ParamValue where
  | text (s : GoString)
  | number (i : Int)
  | flag (b : Bool)
  deriving DecidableEq, Repr

/-- Modelled from the spec: the secure-data section of the descriptor, "a fixed sub-structure
of DesiredState (`secureData.{caCert, clientCert, clientKey}`)".  The source names its fields
`TLSCACert`, `TLSClientCert` and `TLSClientKey` and assigns a `string` to each. -/
structure GrafanaDatasourceSecureJSONData where
  TLSCACert : GoString
  TLSClientCert : GoString
  TLSClientKey : GoString
  deriving DecidableEq, Repr

/-- Modelled from the spec: the descriptor `v1alpha1.GrafanaDatasource`, whose declaration is
not among the sources: its parameters in declaration order, each under its JSON key, and the
secure-data section. -/
structure GrafanaDatasource where
  Params : List (String × ParamValue)
  SecureJSONData : GrafanaDatasourceSecureJSONData
  deriving DecidableEq, Repr

/-- The part of `v1alpha1.GrafanaSpec` the source uses (the type is declared outside the
sources): `Datasource` is a pointer (line 74 dereferences it with `*cfg`), `none` when it is
nil. -/
structure GrafanaSpec where
  Datasource : Option GrafanaDatasource
  deriving DecidableEq, Repr

/-- The part of the owning resource `v1alpha1.Grafana` the source uses (the type is declared
outside the sources): the object the non-nil pointer `cr` points to. -/
structure Grafana where
  Namespace : GoString
  Spec : GrafanaSpec
  deriving DecidableEq, Repr

/-- The observable content of a `corev1.ConfigMap`.  The defaults are the zero value
`corev1.ConfigMap{}`: empty strings and nil maps. -/
structure ConfigMap where
  Name : GoString := []
  Namespace : GoString := []
  Labels : GoMap := none
  Annotations : GoMap := none
  Data : GoMap := none
  deriving DecidableEq, Repr

/-- The generated `(*ConfigMap).DeepCopy`: nil for a nil receiver, otherwise a copy with the
same content (a nil map stays nil). -/
def DeepCopy (current : Option ConfigMap) : Option ConfigMap :=
  match current with
  | none => none
  | some c => some { Name := c.Name, Namespace := c.Namespace, Labels := c.Labels,
                     Annotations := c.Annotations, Data := c.Data }

/-! ## Serialisation of the document -/

/-- The rendering of one parameter value. -/
def encodeParam : ParamValue → GoString
  | .text s => encodeString s
  | .number i => encodeInt i
  | .flag b => encodeBool b

/-- Modelled from the spec: the JSON rendering of the secure-data section, under the keys
the spec gives (`caCert`, `clientCert`, `clientKey`); the struct tags are declared with the
type, outside the sources. -/
def marshalSecureJSONData (s : GrafanaDatasourceSecureJSONData) : GoString :=
  encodeObject [member "caCert" (encodeString s.TLSCACert),
                member "clientCert" (encodeString s.TLSClientCert),
                member "clientKey" (encodeString s.TLSClientKey)]

/-- Modelled from the spec: the JSON rendering of the descriptor, its parameters first and
its secure-data section (`secureData`) last, in the fixed order of the declaration. -/
def marshalDatasource (d : GrafanaDatasource) : GoString :=
  encodeObject (d.Params.map (fun p => member p.1 (encodeParam p.2))
    ++ [member "secureData" (marshalSecureJSONData d.SecureJSONData)])

/-- The envelope that is serialised (source lines 44-47). -/
structure grafanaDatasource where
  APIVersion : Int
  Datasource : GrafanaDatasource
  deriving DecidableEq, Repr

/-- Go `json.Marshal` on the envelope.  `apiVersion` carries `omitempty` and is left out when
it is zero; `omitempty` has no effect on the struct-valued `datasources`.  The encoder fails
only on values it cannot render (channels, functions, cycles), which a struct of strings,
integers and flags does not contain, so the error branch is never taken. -/
def jsonMarshal (v : grafanaDatasource) : Except GoError GoString :=
  .ok (encodeObject
    ((if v.APIVersion = 0 then [] else [member "apiVersion" (encodeInt v.APIVersion)])
      ++ [member "datasources" (marshalDatasource v.Datasource)]))

/-! ## The file system -/

/-- The secret volumes as the process sees them: what `ioutil.ReadFile` yields for a path. -/
abbrev FileSystem := String → Except GoError GoString

/-- The key of the data entry that holds the serialised document. -/
def grafanaDatasourceFile : GoString := goStr "datasource.yaml"

/-- The directory of the client certificate and its key. -/
def certBasePath : String := "/opt/ibm/monitoring/certs/"

/-- The directory of the CA certificate. -/
def caBasePath : String := "/opt/ibm/monitoring/caCerts/"

/-- The file name of a certificate. -/
def certFile : String := "tls.crt"

/-- The file name of the client key. -/
def keyFile : String := "tls.key"

/-- The annotation key `"lastConfig"`. -/
def lastConfig : GoString := goStr "lastConfig"

/-- Go `path.Join` of a directory and a plain file name: joined with one slash (cleaning the
joined path removes the doubled slash after a directory that already ends in one). -/
def pathJoin (dir file : String) : String :=
  match dir.toList.reverse with
  | '/' :: _ => dir ++ file
  | _ => dir ++ "/" ++ file

/-! ## The two operations -/

/-- Source lines 67-70: the three assignments through the pointer `cfg`. -/
def injectSecrets (cfg : GrafanaDatasource) (caCert clientCert clientKey : GoString) :
    GrafanaDatasource :=
  let cfg := { cfg with SecureJSONData := { cfg.SecureJSONData with TLSCACert := caCert } }
  let cfg := { cfg with SecureJSONData := { cfg.SecureJSONData with TLSClientCert := clientCert } }
  { cfg with SecureJSONData := { cfg.SecureJSONData with TLSClientKey := clientKey } }

/-- Source lines 72-76: the envelope with version 1 around the descriptor, serialised. -/
def serializedDocument (cfg : GrafanaDatasource) : Except GoError GoString :=
  jsonMarshal { APIVersion := 1, Datasource := cfg }

/-- Source lines 87-92: the lowercase hexadecimal MD5 digest of the serialised bytes.  Writing
to the hash never fails, so the error branch of line 89 is never taken. -/
def hashMark (bytesData : GoString) : GoString :=
  sprintfHex (md5Sum bytesData)

/-- `GrafanaDatasourceConfig(cr)` (source lines 50-100) against a file system.  The result is
the state in which the call leaves the resource `cr` points to, and how the call ends. -/
def GrafanaDatasourceConfig (fs : FileSystem) (cr : Grafana) :
    Grafana × Outcome (Option ConfigMap × Option GoError) :=
  match fs (pathJoin caBasePath certFile) with
  | .error err => (cr, .returns (none, some err))
  | .ok caCert =>
    match fs (pathJoin certBasePath certFile) with
    | .error err => (cr, .returns (none, some err))
    | .ok clientCert =>
      match fs (pathJoin certBasePath keyFile) with
      | .error err => (cr, .returns (none, some err))
      | .ok clientKey =>
        match cr.Spec.Datasource with
        | none => (cr, .panics .nilDereference)
        | some cfg0 =>
          -- `cfg` is the pointer held by `cr`: the writes land in the resource itself
          let cfg := injectSecrets cfg0 caCert clientCert clientKey
          let cr1 : Grafana := { cr with Spec := { cr.Spec with Datasource := some cfg } }
          match serializedDocument cfg with
          | .error err => (cr1, .returns (none, some err))
          | .ok bytesData =>
            let configMap : ConfigMap := {}
            let configMap : ConfigMap :=
              { configMap with
                Name := goStr "grafana-datasource"
                Namespace := cr.Namespace
                Labels := some [(goStr "app", goStr "grafana"),
                                (goStr "component", goStr "grafana")]
                Annotations := none }
            let configMap : ConfigMap :=
              { configMap with Annotations := some [(lastConfig, hashMark bytesData)] }
            -- line 97: `configMap.Data` has not been made and is still the nil map
            match configMap.Data.assign grafanaDatasourceFile bytesData with
            | none => (cr1, .panics .nilMapAssignment)
            | some data => (cr1, .returns (some { configMap with Data := data }, none))

/-- Source lines 110-117: the comparison of the fingerprints and the replacement. -/
def compareAndReplace (newConfig reconciled : Option ConfigMap) :
    Outcome (Option ConfigMap × Option GoError) :=
  match newConfig with
  | none => .panics .nilDereference
  | some newConfig =>
    let newHash := newConfig.Annotations.index lastConfig
    let newData := newConfig.Data.index grafanaDatasourceFile
    match reconciled with
    | none => .panics .nilDereference
    | some reconciled =>
      if reconciled.Annotations.index lastConfig ≠ newHash then
        match reconciled.Annotations.assign lastConfig newHash with
        | none => .panics .nilMapAssignment
        | some annotations =>
          match reconciled.Data.assign grafanaDatasourceFile newData with
          | none => .panics .nilMapAssignment
          | some data =>
            .returns (some { reconciled with Annotations := annotations, Data := data }, none)
      else .returns (some reconciled, none)

/-- `ReconciledGrafanaDatasource(cr, current)` (source lines 102-119). -/
def ReconciledGrafanaDatasource (fs : FileSystem) (cr : Grafana) (current : Option ConfigMap) :
    Grafana × Outcome (Option ConfigMap × Option GoError) :=
  let reconciled := DeepCopy current
  match GrafanaDatasourceConfig fs cr with
  | (cr1, .panics cause) => (cr1, .panics cause)
  | (cr1, .returns (_, some err)) => (cr1, .returns (none, some err))
  | (cr1, .returns (newConfig, none)) => (cr1, compareAndReplace newConfig reconciled)

/-! ## Concrete inputs -/

/-- The secret volumes of the scenario: CA certificate `A`, client certificate `B`, key `C`. -/
def scenarioFiles : FileSystem := fun p =>
  if p = "/opt/ibm/monitoring/caCerts/tls.crt" then .ok (goStr "A")
  else if p = "/opt/ibm/monitoring/certs/tls.crt" then .ok (goStr "B")
  else if p = "/opt/ibm/monitoring/certs/tls.key" then .ok (goStr "C")
  else .error ⟨"no such file"⟩

/-- The descriptor of the scenario, before any secret is injected. -/
def scenarioDatasource : GrafanaDatasource :=
  { Params := [("host", .text (goStr "grafana-ds")), ("tlsEnabled", .flag true)]
    SecureJSONData := ⟨[], [], []⟩ }

/-- The owning resource of the scenario. -/
def scenarioResource : Grafana :=
  { Namespace := goStr "monitoring", Spec := ⟨some scenarioDatasource⟩ }

/-- The owning resource of the scenario once the secrets were written into its descriptor. -/
def scenarioResourceAfter : Grafana :=
  { Namespace := goStr "monitoring"
    Spec := ⟨some { scenarioDatasource with
      SecureJSONData := ⟨goStr "A", goStr "B", goStr "C"⟩ }⟩ }

/-- The serialised document of the scenario. -/
def scenarioBytes : GoString :=
  goStr ("\x7b\"apiVersion\":1,\"datasources\":\x7b\"host\":\"grafana-ds\",\"tlsEnabled\":true,"
    ++ "\"secureData\":\x7b\"caCert\":\"A\",\"clientCert\":\"B\",\"clientKey\":\"C\"\x7d\x7d\x7d")

/-- A stored config map whose annotation is the fingerprint of the scenario's document while
its payload holds other bytes. -/
def storedMatching : ConfigMap :=
  { Name := goStr "grafana-datasource"
    Namespace := goStr "monitoring"
    Labels := some [(goStr "app", goStr "grafana"), (goStr "component", goStr "grafana")]
    Annotations := some [(lastConfig, goStr "908af10bd831651d5527cca3fdfa84ab")]
    Data := some [(grafanaDatasourceFile, goStr "original payload")] }

/-- A stored config map with a stale fingerprint and a stale payload. -/
def storedStale : ConfigMap :=
  { Name := goStr "grafana-datasource"
    Namespace := goStr "monitoring"
    Labels := some [(goStr "app", goStr "grafana"), (goStr "component", goStr "grafana")]
    Annotations := some [(lastConfig, goStr "00000000000000000000000000000000")]
    Data := some [(grafanaDatasourceFile, goStr "original payload")] }

/-- A config map that carries the document of the scenario and its fingerprint. -/
def scenarioConfigMap : ConfigMap :=
  { Name := goStr "grafana-datasource"
    Namespace := goStr "monitoring"
    Labels := some [(goStr "app", goStr "grafana"), (goStr "component", goStr "grafana")]
    Annotations := some [(lastConfig, goStr "908af10bd831651d5527cca3fdfa84ab")]
    Data := some [(grafanaDatasourceFile, scenarioBytes)] }

/-- A stored config map without any annotation. -/
def storedWithoutAnnotations : ConfigMap :=
  { Name := goStr "grafana-datasource"
    Namespace := goStr "monitoring"
    Data := some [(grafanaDatasourceFile, goStr "original payload")] }

/-- Secret volumes in which the client certificate cannot be read. -/
def filesWithoutClientCert : FileSystem := fun p =>
  if p = "/opt/ibm/monitoring/caCerts/tls.crt" then .ok (goStr "A")
  else if p = "/opt/ibm/monitoring/certs/tls.key" then .ok (goStr "C")
  else .error ⟨"no such file"⟩

/-! ## The assembly: general facts -/

theorem assembly_after_reads (fs : FileSystem) (cr : Grafana) (cfg0 : GrafanaDatasource)
    (caCert clientCert clientKey : GoString)
    (hca : fs (pathJoin caBasePath certFile) = .ok caCert)
    (hcert : fs (pathJoin certBasePath certFile) = .ok clientCert)
    (hkey : fs (pathJoin certBasePath keyFile) = .ok clientKey)
    (hds : cr.Spec.Datasource = some cfg0) :
    GrafanaDatasourceConfig fs cr
      = ({ cr with Spec := { cr.Spec with
            Datasource := some (injectSecrets cfg0 caCert clientCert clientKey) } },
         .panics .nilMapAssignment) := by
  simp [GrafanaDatasourceConfig, hca, hcert, hkey, hds, serializedDocument, jsonMarshal,
    GoMap.assign]

theorem assembly_without_descriptor (fs : FileSystem) (cr : Grafana)
    (caCert clientCert clientKey : GoString)
    (hca : fs (pathJoin caBasePath certFile) = .ok caCert)
    (hcert : fs (pathJoin certBasePath certFile) = .ok clientCert)
    (hkey : fs (pathJoin certBasePath keyFile) = .ok clientKey)
    (hds : cr.Spec.Datasource = none) :
    GrafanaDatasourceConfig fs cr = (cr, .panics .nilDereference) := by
  simp [GrafanaDatasourceConfig, hca, hcert, hkey, hds]

theorem scenarioBytes_eq :
    serializedDocument (injectSecrets scenarioDatasource (goStr "A") (goStr "B") (goStr "C"))
      = .ok scenarioBytes := by
  simp only [serializedDocument, jsonMarshal, Except.ok.injEq]
  decide

theorem assembly_ends (fs : FileSystem) (cr : Grafana) :
    (∃ cause, (GrafanaDatasourceConfig fs cr).2 = .panics cause)
      ∨ ∃ err, GrafanaDatasourceConfig fs cr = (cr, .returns (none, some err)) := by
  unfold GrafanaDatasourceConfig
  split
  · exact Or.inr ⟨_, rfl⟩
  · split
    · exact Or.inr ⟨_, rfl⟩
    · split
      · exact Or.inr ⟨_, rfl⟩
      · split
        · exact Or.inl ⟨_, rfl⟩
        · simp [serializedDocument, jsonMarshal, GoMap.assign]

theorem reconcile_after_reads (fs : FileSystem) (cr : Grafana) (cfg0 : GrafanaDatasource)
    (caCert clientCert clientKey : GoString) (current : Option ConfigMap)
    (hca : fs (pathJoin caBasePath certFile) = .ok caCert)
    (hcert : fs (pathJoin certBasePath certFile) = .ok clientCert)
    (hkey : fs (pathJoin certBasePath keyFile) = .ok clientKey)
    (hds : cr.Spec.Datasource = some cfg0) :
    ReconciledGrafanaDatasource fs cr current
      = ({ cr with Spec := { cr.Spec with
            Datasource := some (injectSecrets cfg0 caCert clientCert clientKey) } },
         .panics .nilMapAssignment) := by
  simp [ReconciledGrafanaDatasource,
    assembly_after_reads fs cr cfg0 caCert clientCert clientKey hca hcert hkey hds]

theorem hashMark_length (bytesData : GoString) : (hashMark bytesData).length = 32 := by
  have hex : ∀ l : GoString, (sprintfHex l).length = 2 * l.length := by
    intro l
    induction l with
    | nil => rfl
    | cons b rest ih => simp [sprintfHex, ih]; omega
  simp [hashMark, hex, md5Sum, leBytes]

set_option maxRecDepth 1000000 in
/-- The model of MD5 on a standard test vector. -/
theorem md5_abc : hashMark (goStr "abc") = goStr "900150983cd24fb0d6963f7d28e17f72" := by
  decide

set_option maxRecDepth 1000000 in
/-- The fingerprint of the scenario's document. -/
theorem scenario_hashMark :
    hashMark scenarioBytes = goStr "908af10bd831651d5527cca3fdfa84ab" := by
  decide

theorem GrafanaDatasourceConfig_eq_scenario :
    GrafanaDatasourceConfig scenarioFiles scenarioResource
      = (scenarioResourceAfter, Outcome.panics Panic.nilMapAssignment) := by
  decide

/-! ## The claims on a successful assembly -/

/-- C5 (fails on the code): with three readable secrets `GrafanaDatasourceConfig` should
return a complete config map with the single data entry `datasource.yaml` and the annotation
`lastConfig`.  At the scenario of the spec it panics instead: line 97 assigns to
`configMap.Data`, which is still the nil map of the zero value, after the secrets were
written into the descriptor of the resource. -/
theorem GrafanaDatasourceConfig_panics_on_nil_data :
    GrafanaDatasourceConfig scenarioFiles scenarioResource
      = (scenarioResourceAfter, Outcome.panics Panic.nilMapAssignment) := by
  decide

/-- C1 (fails on the code): a stored config map whose `lastConfig` annotation equals the
fingerprint of the new document should come back unchanged.  The stored map of the scenario
carries that fingerprint, yet the call panics inside `GrafanaDatasourceConfig` before the
fingerprints are compared. -/
theorem ReconciledGrafanaDatasource_matching_fingerprint_panics :
    storedMatching.Annotations.index lastConfig = hashMark scenarioBytes
      ∧ serializedDocument (injectSecrets scenarioDatasource (goStr "A") (goStr "B") (goStr "C"))
          = .ok scenarioBytes
      ∧ ReconciledGrafanaDatasource scenarioFiles scenarioResource (some storedMatching)
          = (scenarioResourceAfter, Outcome.panics Panic.nilMapAssignment) := by
  refine ⟨?_, scenarioBytes_eq, by decide⟩
  rw [scenario_hashMark]
  decide

/-- C2 (fails on the code): a stored config map with a stale `lastConfig` annotation should
come back with payload and annotation replaced together.  The call panics inside
`GrafanaDatasourceConfig` and returns nothing. -/
theorem ReconciledGrafanaDatasource_stale_fingerprint_panics :
    storedStale.Annotations.index lastConfig ≠ hashMark scenarioBytes
      ∧ ReconciledGrafanaDatasource scenarioFiles scenarioResource (some storedStale)
          = (scenarioResourceAfter, Outcome.panics Panic.nilMapAssignment) := by
  refine ⟨?_, by decide⟩
  rw [scenario_hashMark]
  decide

/-- C4 (fails on the code): reconciling twice with unchanged inputs should succeed twice, the
second pass changing nothing.  The first pass already panics, so there is no result to feed
into the second pass, and a second pass on the stored map panics in the same way. -/
theorem ReconciledGrafanaDatasource_twice_panics :
    ReconciledGrafanaDatasource scenarioFiles scenarioResource (some storedStale)
        = (scenarioResourceAfter, Outcome.panics Panic.nilMapAssignment)
      ∧ ReconciledGrafanaDatasource scenarioFiles
          (ReconciledGrafanaDatasource scenarioFiles scenarioResource (some storedStale)).1
          (some storedStale)
        = (scenarioResourceAfter, Outcome.panics Panic.nilMapAssignment) := by
  decide

/-- C3 (counterexample): without a stored config map the call of the scenario returns no
freshly built config map: it panics. -/
theorem ReconciledGrafanaDatasource_nil_panics :
    ReconciledGrafanaDatasource scenarioFiles scenarioResource none
      = (scenarioResourceAfter, Outcome.panics Panic.nilMapAssignment) := by
  decide

/-- C3 (amended): `ReconciledGrafanaDatasource(cr, nil)` never yields a config map, whatever
the resource and the secret files: the function has no branch for an absent stored config
map, and the comparison of lines 110-117 dereferences the nil copy whatever config map the
assembly hands over. -/
theorem ReconciledGrafanaDatasource_nil_yields_no_config_map (fs : FileSystem) (cr : Grafana) :
    (∀ configMap err,
        (ReconciledGrafanaDatasource fs cr none).2 ≠ Outcome.returns (some configMap, err))
      ∧ ∀ newConfig, compareAndReplace newConfig (DeepCopy none)
          = Outcome.panics Panic.nilDereference := by
  have tail : ∀ newConfig, compareAndReplace newConfig (DeepCopy none)
      = Outcome.panics Panic.nilDereference := by
    intro newConfig
    cases newConfig <;> rfl
  refine ⟨?_, tail⟩
  intro configMap err
  rcases hg : GrafanaDatasourceConfig fs cr with ⟨cr1, out⟩
  cases out with
  | panics cause => simp [ReconciledGrafanaDatasource, hg]
  | returns results =>
    obtain ⟨newConfig, e⟩ := results
    cases e with
    | some e1 => simp [ReconciledGrafanaDatasource, hg]
    | none =>
      have := tail newConfig
      simp only [DeepCopy] at this
      simp [ReconciledGrafanaDatasource, hg, DeepCopy, this]

/-! ## Errors -/

theorem reconcile_of_assembly_error (fs : FileSystem) (cr : Grafana)
    (current : Option ConfigMap) (err : GoError)
    (h : GrafanaDatasourceConfig fs cr = (cr, .returns (none, some err))) :
    ReconciledGrafanaDatasource fs cr current = (cr, .returns (none, some err)) := by
  simp [ReconciledGrafanaDatasource, h]

theorem reconcile_no_error_of_panic (fs : FileSystem) (cr : Grafana)
    (current : Option ConfigMap) (cause : Panic)
    (h : (GrafanaDatasourceConfig fs cr).2 = .panics cause) :
    (ReconciledGrafanaDatasource fs cr current).2 = .panics cause := by
  rcases hg : GrafanaDatasourceConfig fs cr with ⟨cr1, out⟩
  rw [hg] at h
  simp only at h
  subst h
  simp [ReconciledGrafanaDatasource, hg]

/-- C6: when one of the three reads fails (the CA certificate, else the client certificate,
else the client key), `GrafanaDatasourceConfig` returns the error of that read with a nil
config map and leaves the resource alone, and `ReconciledGrafanaDatasource` returns the same
error with a nil config map, for every stored config map including nil.  When all three reads
succeed neither call returns an error (serialisation cannot fail; the calls then end in the
panic of C5, not in an error). -/
theorem secret_read_errors (fs : FileSystem) (cr : Grafana) (current : Option ConfigMap) :
    (∀ err, fs (pathJoin caBasePath certFile) = .error err →
        GrafanaDatasourceConfig fs cr = (cr, Outcome.returns (none, some err))
          ∧ ReconciledGrafanaDatasource fs cr current = (cr, Outcome.returns (none, some err)))
      ∧ (∀ caCert err, fs (pathJoin caBasePath certFile) = .ok caCert →
          fs (pathJoin certBasePath certFile) = .error err →
        GrafanaDatasourceConfig fs cr = (cr, Outcome.returns (none, some err))
          ∧ ReconciledGrafanaDatasource fs cr current = (cr, Outcome.returns (none, some err)))
      ∧ (∀ caCert clientCert err, fs (pathJoin caBasePath certFile) = .ok caCert →
          fs (pathJoin certBasePath certFile) = .ok clientCert →
          fs (pathJoin certBasePath keyFile) = .error err →
        GrafanaDatasourceConfig fs cr = (cr, Outcome.returns (none, some err))
          ∧ ReconciledGrafanaDatasource fs cr current = (cr, Outcome.returns (none, some err)))
      ∧ (∀ caCert clientCert clientKey, fs (pathJoin caBasePath certFile) = .ok caCert →
          fs (pathJoin certBasePath certFile) = .ok clientCert →
          fs (pathJoin certBasePath keyFile) = .ok clientKey →
        (∀ cfg, ∃ bytesData, serializedDocument cfg = .ok bytesData)
          ∧ (∀ result err,
              (GrafanaDatasourceConfig fs cr).2 ≠ Outcome.returns (result, some err))
          ∧ ∀ result err,
              (ReconciledGrafanaDatasource fs cr current).2
                ≠ Outcome.returns (result, some err)) := by
  refine ⟨?_, ?_, ?_, ?_⟩
  · intro err hca
    have h : GrafanaDatasourceConfig fs cr = (cr, .returns (none, some err)) := by
      simp [GrafanaDatasourceConfig, hca]
    exact ⟨h, reconcile_of_assembly_error fs cr current err h⟩
  · intro caCert err hca hcert
    have h : GrafanaDatasourceConfig fs cr = (cr, .returns (none, some err)) := by
      simp [GrafanaDatasourceConfig, hca, hcert]
    exact ⟨h, reconcile_of_assembly_error fs cr current err h⟩
  · intro caCert clientCert err hca hcert hkey
    have h : GrafanaDatasourceConfig fs cr = (cr, .returns (none, some err)) := by
      simp [GrafanaDatasourceConfig, hca, hcert, hkey]
    exact ⟨h, reconcile_of_assembly_error fs cr current err h⟩
  · intro caCert clientCert clientKey hca hcert hkey
    have hp : ∃ cause, (GrafanaDatasourceConfig fs cr).2 = .panics cause := by
      cases hds : cr.Spec.Datasource with
      | none =>
        exact ⟨_, by
          rw [assembly_without_descriptor fs cr caCert clientCert clientKey hca hcert hkey hds]⟩
      | some cfg0 =>
        exact ⟨_, by
          rw [assembly_after_reads fs cr cfg0 caCert clientCert clientKey hca hcert hkey hds]⟩
    obtain ⟨cause, hp⟩ := hp
    refine ⟨?_, ?_, ?_⟩
    · intro cfg
      exact ⟨_, rfl⟩
    · intro result err
      rw [hp]
      simp
    · intro result err
      rw [reconcile_no_error_of_panic fs cr current cause hp]
      simp

/-- C6 at concrete inputs: an unreadable client certificate is reported by both calls, and
with the readable secrets of the scenario neither call reports an error. -/
theorem secret_read_errors_witness :
    (GrafanaDatasourceConfig filesWithoutClientCert scenarioResource
        = (scenarioResource, Outcome.returns (none, some (GoError.mk "no such file")))
      ∧ ReconciledGrafanaDatasource filesWithoutClientCert scenarioResource (some storedStale)
        = (scenarioResource, Outcome.returns (none, some (GoError.mk "no such file"))))
    ∧ ∀ result err,
        (ReconciledGrafanaDatasource scenarioFiles scenarioResource (some storedStale)).2
          ≠ Outcome.returns (result, some err) :=
  ⟨(secret_read_errors filesWithoutClientCert scenarioResource (some storedStale)).2.1
      (goStr "A") (GoError.mk "no such file") rfl rfl,
   ((secret_read_errors scenarioFiles scenarioResource (some storedStale)).2.2.2
      (goStr "A") (goStr "B") (goStr "C") rfl rfl rfl).2.2⟩

/-! ## Determinism, frame, document shape -/

theorem injectSecrets_eq (cfg : GrafanaDatasource) (caCert clientCert clientKey : GoString) :
    injectSecrets cfg caCert clientCert clientKey
      = { Params := cfg.Params, SecureJSONData := ⟨caCert, clientCert, clientKey⟩ } := rfl

/-- C8: the assembly is deterministic.  A second call with the same resource and the same
secret files, made in the state the first call left behind, ends exactly as the first and
leaves the same state; the serialised document depends on the descriptor only through its
parameters and the three secrets (whatever the secure-data fields held before is
overwritten); and the fingerprint is a function of the serialised bytes alone. -/
theorem assembly_deterministic (fs : FileSystem) (cr : Grafana) :
    GrafanaDatasourceConfig fs (GrafanaDatasourceConfig fs cr).1 = GrafanaDatasourceConfig fs cr
      ∧ (∀ cfg cfg2 caCert clientCert clientKey, cfg.Params = cfg2.Params →
          serializedDocument (injectSecrets cfg caCert clientCert clientKey)
            = serializedDocument (injectSecrets cfg2 caCert clientCert clientKey))
      ∧ ∀ cfg cfg2 bytes1 bytes2, serializedDocument cfg = .ok bytes1 →
          serializedDocument cfg2 = .ok bytes2 → bytes1 = bytes2 →
          hashMark bytes1 = hashMark bytes2 := by
  refine ⟨?_, ?_, ?_⟩
  · cases hca : fs (pathJoin caBasePath certFile) with
    | error err => simp [GrafanaDatasourceConfig, hca]
    | ok caCert =>
      cases hcert : fs (pathJoin certBasePath certFile) with
      | error err => simp [GrafanaDatasourceConfig, hca, hcert]
      | ok clientCert =>
        cases hkey : fs (pathJoin certBasePath keyFile) with
        | error err => simp [GrafanaDatasourceConfig, hca, hcert, hkey]
        | ok clientKey =>
          cases hds : cr.Spec.Datasource with
          | none =>
            rw [assembly_without_descriptor fs cr caCert clientCert clientKey hca hcert hkey hds]
            exact assembly_without_descriptor fs cr caCert clientCert clientKey hca hcert hkey hds
          | some cfg0 =>
            rw [assembly_after_reads fs cr cfg0 caCert clientCert clientKey hca hcert hkey hds]
            rw [assembly_after_reads fs _ (injectSecrets cfg0 caCert clientCert clientKey)
              caCert clientCert clientKey hca hcert hkey rfl]
            simp [injectSecrets_eq]
  · intro cfg cfg2 caCert clientCert clientKey h
    simp [injectSecrets_eq, h]
  · intro cfg cfg2 bytes1 bytes2 _ _ h
    rw [h]

/-- C8 at the scenario: the second call repeats the first. -/
theorem assembly_deterministic_witness :
    GrafanaDatasourceConfig scenarioFiles scenarioResourceAfter
        = (scenarioResourceAfter, Outcome.panics Panic.nilMapAssignment)
      ∧ serializedDocument (injectSecrets scenarioDatasource (goStr "A") (goStr "B") (goStr "C"))
        = serializedDocument
            (injectSecrets { scenarioDatasource with SecureJSONData := ⟨goStr "x", [], []⟩ }
              (goStr "A") (goStr "B") (goStr "C")) :=
  ⟨by
    have h := (assembly_deterministic scenarioFiles scenarioResource).1
    rw [GrafanaDatasourceConfig_eq_scenario] at h
    exact h,
   (assembly_deterministic scenarioFiles scenarioResource).2.1 _ _ _ _ _ rfl⟩

/-- C9 (counterexample): the call of the scenario changes the descriptor of the resource it
was given: afterwards the secure-data fields hold the three secrets. -/
theorem GrafanaDatasourceConfig_writes_descriptor :
    (GrafanaDatasourceConfig scenarioFiles scenarioResource).1 ≠ scenarioResource
      ∧ (GrafanaDatasourceConfig scenarioFiles scenarioResource).1.Spec.Datasource
          = some { Params := scenarioDatasource.Params
                   SecureJSONData := ⟨goStr "A", goStr "B", goStr "C"⟩ } := by
  decide

/-- C9 (amended): when one of the three reads fails the call leaves the resource as it was;
a call on a resource without a descriptor changes nothing; the namespace never changes; and
when the three reads succeed the call overwrites exactly the fields `TLSCACert`,
`TLSClientCert` and `TLSClientKey` of `cr.Spec.Datasource.SecureJSONData` with the secrets
read (the descriptor is reached through the pointer held by `cr`), leaving the parameters of
the descriptor as they were. -/
theorem GrafanaDatasourceConfig_frame (fs : FileSystem) (cr : Grafana) :
    (∀ err, fs (pathJoin caBasePath certFile) = .error err
          ∨ fs (pathJoin certBasePath certFile) = .error err
          ∨ fs (pathJoin certBasePath keyFile) = .error err →
        (GrafanaDatasourceConfig fs cr).1 = cr)
      ∧ (cr.Spec.Datasource = none → (GrafanaDatasourceConfig fs cr).1 = cr)
      ∧ (GrafanaDatasourceConfig fs cr).1.Namespace = cr.Namespace
      ∧ ∀ caCert clientCert clientKey cfg0,
          fs (pathJoin caBasePath certFile) = .ok caCert →
          fs (pathJoin certBasePath certFile) = .ok clientCert →
          fs (pathJoin certBasePath keyFile) = .ok clientKey →
          cr.Spec.Datasource = some cfg0 →
          (GrafanaDatasourceConfig fs cr).1
            = { Namespace := cr.Namespace
                Spec := ⟨some ⟨cfg0.Params, ⟨caCert, clientCert, clientKey⟩⟩⟩ } := by
  have hcases : (GrafanaDatasourceConfig fs cr).1 = cr
      ∨ ∃ caCert clientCert clientKey cfg0,
          fs (pathJoin caBasePath certFile) = .ok caCert
            ∧ fs (pathJoin certBasePath certFile) = .ok clientCert
            ∧ fs (pathJoin certBasePath keyFile) = .ok clientKey
            ∧ cr.Spec.Datasource = some cfg0 := by
    cases hca : fs (pathJoin caBasePath certFile) with
    | error err => left; simp [GrafanaDatasourceConfig, hca]
    | ok caCert =>
      cases hcert : fs (pathJoin certBasePath certFile) with
      | error err => left; simp [GrafanaDatasourceConfig, hca, hcert]
      | ok clientCert =>
        cases hkey : fs (pathJoin certBasePath keyFile) with
        | error err => left; simp [GrafanaDatasourceConfig, hca, hcert, hkey]
        | ok clientKey =>
          cases hds : cr.Spec.Datasource with
          | none =>
            left
            rw [assembly_without_descriptor fs cr caCert clientCert clientKey hca hcert hkey hds]
          | some cfg0 => exact Or.inr ⟨caCert, clientCert, clientKey, cfg0, rfl, rfl, rfl, rfl⟩
  have hwrite : ∀ caCert clientCert clientKey cfg0,
      fs (pathJoin caBasePath certFile) = .ok caCert →
      fs (pathJoin certBasePath certFile) = .ok clientCert →
      fs (pathJoin certBasePath keyFile) = .ok clientKey →
      cr.Spec.Datasource = some cfg0 →
      (GrafanaDatasourceConfig fs cr).1
        = { Namespace := cr.Namespace
            Spec := ⟨some ⟨cfg0.Params, ⟨caCert, clientCert, clientKey⟩⟩⟩ } := by
    intro caCert clientCert clientKey cfg0 hca hcert hkey hds
    rw [assembly_after_reads fs cr cfg0 caCert clientCert clientKey hca hcert hkey hds]
    rfl
  refine ⟨?_, ?_, ?_, hwrite⟩
  · intro err herr
    rcases hcases with h | ⟨caCert, clientCert, clientKey, cfg0, hca, hcert, hkey, _⟩
    · exact h
    · rcases herr with h | h | h
      · rw [hca] at h; cases h
      · rw [hcert] at h; cases h
      · rw [hkey] at h; cases h
  · intro hds
    rcases hcases with h | ⟨_, _, _, cfg0, _, _, _, hds2⟩
    · exact h
    · rw [hds] at hds2; cases hds2
  · rcases hcases with h | ⟨caCert, clientCert, clientKey, cfg0, hca, hcert, hkey, hds⟩
    · rw [h]
    · rw [hwrite caCert clientCert clientKey cfg0 hca hcert hkey hds]

/-- C9 (amended) at concrete inputs: unreadable secrets leave the resource alone, readable
ones end up in its descriptor. -/
theorem GrafanaDatasourceConfig_frame_witness :
    (GrafanaDatasourceConfig filesWithoutClientCert scenarioResource).1 = scenarioResource
      ∧ (GrafanaDatasourceConfig scenarioFiles scenarioResource).1 = scenarioResourceAfter :=
  ⟨(GrafanaDatasourceConfig_frame filesWithoutClientCert scenarioResource).1
      (GoError.mk "no such file") (Or.inr (Or.inl rfl)),
   (GrafanaDatasourceConfig_frame scenarioFiles scenarioResource).2.2.2
      (goStr "A") (goStr "B") (goStr "C") scenarioDatasource rfl rfl rfl rfl⟩

theorem member_datasources (value : GoString) :
    member "datasources" value = goStr "\"datasources\":" ++ value := by
  have h : encodeString (goStr "datasources") ++ [0x3A] = goStr "\"datasources\":" := by decide
  unfold member
  rw [h]

theorem member_apiVersion : member "apiVersion" (encodeInt 1) = goStr "\"apiVersion\":1" := by
  decide

/-- C10: the serialised document is the JSON object with the two members `apiVersion` and
`datasources`, in this order: `apiVersion` is present with the value 1 (its `omitempty` only
drops a zero), and `datasources` is the rendering of the descriptor whose secure-data section
holds the three secrets. -/
theorem serializedDocument_shape (cfg0 : GrafanaDatasource)
    (caCert clientCert clientKey : GoString) :
    serializedDocument (injectSecrets cfg0 caCert clientCert clientKey)
        = .ok (goStr "\x7b\"apiVersion\":1,\"datasources\":"
            ++ marshalDatasource (injectSecrets cfg0 caCert clientCert clientKey)
            ++ goStr "\x7d")
      ∧ serializedDocument (injectSecrets cfg0 caCert clientCert clientKey)
        = .ok (encodeObject [member "apiVersion" (encodeInt 1),
            member "datasources"
              (marshalDatasource (injectSecrets cfg0 caCert clientCert clientKey))])
      ∧ marshalDatasource (injectSecrets cfg0 caCert clientCert clientKey)
        = encodeObject (cfg0.Params.map (fun p => member p.1 (encodeParam p.2))
            ++ [member "secureData"
                (encodeObject [member "caCert" (encodeString caCert),
                               member "clientCert" (encodeString clientCert),
                               member "clientKey" (encodeString clientKey)])]) := by
  refine ⟨?_, ?_, ?_⟩
  · have h : goStr "\x7b\"apiVersion\":1,\"datasources\":"
        = [0x7B] ++ goStr "\"apiVersion\":1" ++ [0x2C] ++ goStr "\"datasources\":" := by
      decide
    simp only [serializedDocument, jsonMarshal, encodeObject, joinMembers, member_datasources,
      member_apiVersion, h]
    simp
    decide
  · simp [serializedDocument, jsonMarshal]
  · rfl

/-! ## The string encoder is injective on valid UTF-8 -/

theorem and_0x3F (x : Nat) : x &&& 0x3F = x % 64 := Nat.and_pow_two_sub_one_eq_mod x 6
theorem and_0x1F (x : Nat) : x &&& 0x1F = x % 32 := Nat.and_pow_two_sub_one_eq_mod x 5
theorem and_0x0F (x : Nat) : x &&& 0x0F = x % 16 := Nat.and_pow_two_sub_one_eq_mod x 4
theorem and_0x07 (x : Nat) : x &&& 0x07 = x % 8 := Nat.and_pow_two_sub_one_eq_mod x 3

theorem or_low (a b i : Nat) (h : b < 2 ^ i) : (a <<< i) ||| b = a * 2 ^ i + b := by
  rw [Nat.shiftLeft_eq, Nat.mul_comm, ← Nat.mul_add_lt_is_or h]

theorem rune2_eq (s0 s1 : Nat) :
    ((s0 &&& 0x1F) <<< 6) ||| (s1 &&& 0x3F) = (s0 % 32) * 64 + s1 % 64 := by
  rw [and_0x1F, and_0x3F, or_low _ _ 6 (by omega)]
  omega

theorem rune3_eq (s0 s1 s2 : Nat) :
    ((s0 &&& 0x0F) <<< 12) ||| ((s1 &&& 0x3F) <<< 6) ||| (s2 &&& 0x3F)
      = (s0 % 16) * 4096 + (s1 % 64) * 64 + s2 % 64 := by
  rw [and_0x0F, and_0x3F, and_0x3F, Nat.or_assoc, or_low (s1 % 64) _ 6 (by omega),
    or_low _ _ 12 (by omega)]
  omega

theorem rune4_eq (s0 s1 s2 s3 : Nat) :
    ((s0 &&& 0x07) <<< 18) ||| ((s1 &&& 0x3F) <<< 12) ||| ((s2 &&& 0x3F) <<< 6) ||| (s3 &&& 0x3F)
      = (s0 % 8) * 262144 + (s1 % 64) * 4096 + (s2 % 64) * 64 + s3 % 64 := by
  rw [and_0x07, and_0x3F, and_0x3F, and_0x3F, Nat.or_assoc, Nat.or_assoc,
    or_low (s2 % 64) _ 6 (by omega), or_low (s1 % 64) _ 12 (by omega),
    or_low _ _ 18 (by omega)]
  omega


theorem firstInfo_some (b sz lo hi : Nat) (h : firstInfo b = some (sz, lo, hi)) :
    0xC2 ≤ b ∧ b ≤ 0xF4 ∧ 0x80 ≤ lo ∧ hi ≤ 0xBF
      ∧ ((sz = 2 ∧ b ≤ 0xDF) ∨ (sz = 3 ∧ 0xE0 ≤ b ∧ b ≤ 0xEF ∧ (b = 0xE2 → lo = 0x80))
          ∨ (sz = 4 ∧ 0xF0 ≤ b ∧ (b = 0xF0 → 0x90 ≤ lo))) := by
  unfold firstInfo at h
  split_ifs at h <;> simp only [Option.some.injEq, Prod.mk.injEq] at h <;> omega


theorem decodeRune_multibyte (b : Nat) (rest : GoString) (hb : ¬ b < 0x80) :
    decodeRune (b :: rest) = (RuneError, 1) ∨
    (2 ≤ (decodeRune (b :: rest)).2
      ∧ (∀ c ∈ rest.take ((decodeRune (b :: rest)).2 - 1), 0x80 ≤ c)
      ∧ ((decodeRune (b :: rest)).1 = 0x2028 →
          b = 0xE2 ∧ (decodeRune (b :: rest)).2 = 3 ∧ ∃ rest3, rest = 0x80 :: 0xA8 :: rest3)
      ∧ ((decodeRune (b :: rest)).1 = 0x2029 →
          b = 0xE2 ∧ (decodeRune (b :: rest)).2 = 3 ∧ ∃ rest3, rest = 0x80 :: 0xA9 :: rest3)) := by
  cases hfi : firstInfo b with
  | none => left; simp [decodeRune, hb, hfi]
  | some info =>
    obtain ⟨sz, lo, hi⟩ := info
    obtain ⟨hb1, hb2, hlo, hhi, hsz⟩ := firstInfo_some b sz lo hi hfi
    cases rest with
    | nil => left; simp [decodeRune, hb, hfi]
    | cons s1 t1 =>
      by_cases h1 : s1 < lo ∨ hi < s1
      · left
        simp only [decodeRune, hb, hfi, h1, if_true, if_false]
        split_ifs <;> rfl
      · rcases hsz with ⟨rfl, hb3⟩ | ⟨rfl, hb3, hb4, hb5⟩ | ⟨rfl, hb3, hb5⟩
        · right
          have hd : decodeRune (b :: s1 :: t1) = (((b &&& 0x1F) <<< 6) ||| (s1 &&& 0x3F), 2) := by
            simp [decodeRune, hb, hfi, h1]
          rw [hd, rune2_eq]
          refine ⟨le_refl _, ?_, ?_, ?_⟩
          · intro c hc
            simp at hc
            omega
          · intro h; exfalso; simp only at h; omega
          · intro h; exfalso; simp only at h; omega
        · cases t1 with
          | nil => left; simp [decodeRune, hb, hfi]
          | cons s2 t2 =>
            by_cases h2 : s2 < 0x80 ∨ 0xBF < s2
            · left
              simp [decodeRune, hb, hfi, h1, h2]
            · right
              have hd : decodeRune (b :: s1 :: s2 :: t2)
                  = (((b &&& 0x0F) <<< 12) ||| ((s1 &&& 0x3F) <<< 6) ||| (s2 &&& 0x3F), 3) := by
                simp [decodeRune, hb, hfi, h1, h2]
              rw [hd, rune3_eq]
              refine ⟨by simp, ?_, ?_, ?_⟩
              · intro c hc
                simp at hc
                omega
              · intro h
                simp only at h
                have e0 : b = 0xE2 := by omega
                have e1 : s1 = 0x80 := by have := hb5 e0; omega
                have e2 : s2 = 0xA8 := by omega
                exact ⟨e0, rfl, t2, by rw [e1, e2]⟩
              · intro h
                simp only at h
                have e0 : b = 0xE2 := by omega
                have e1 : s1 = 0x80 := by have := hb5 e0; omega
                have e2 : s2 = 0xA9 := by omega
                exact ⟨e0, rfl, t2, by rw [e1, e2]⟩
        · cases t1 with
          | nil => left; simp [decodeRune, hb, hfi]
          | cons s2 t2 =>
            by_cases h2 : s2 < 0x80 ∨ 0xBF < s2
            · left
              simp [decodeRune, hb, hfi, h1, h2]
            · cases t2 with
              | nil => left; simp [decodeRune, hb, hfi, h1, h2]
              | cons s3 t3 =>
                by_cases h3 : s3 < 0x80 ∨ 0xBF < s3
                · left
                  simp [decodeRune, hb, hfi, h1, h2, h3]
                · right
                  have hd : decodeRune (b :: s1 :: s2 :: s3 :: t3)
                      = (((b &&& 0x07) <<< 18) ||| ((s1 &&& 0x3F) <<< 12)
                          ||| ((s2 &&& 0x3F) <<< 6) ||| (s3 &&& 0x3F), 4) := by
                    simp [decodeRune, hb, hfi, h1, h2, h3]
                  rw [hd, rune4_eq]
                  refine ⟨by simp, ?_, ?_, ?_⟩
                  · intro c hc
                    simp at hc
                    omega
                  · intro h
                    exfalso
                    simp only at h
                    by_cases e0 : b = 0xF0
                    · have := hb5 e0
                      omega
                    · omega
                  · intro h
                    exfalso
                    simp only at h
                    by_cases e0 : b = 0xF0
                    · have := hb5 e0
                      omega
                    · omega


theorem unhex_hexDigit (n : Nat) (h : n < 16) : unhex (hexDigit n) = n := by
  unfold unhex hexDigit
  split_ifs <;> omega

theorem unescape_quote (tail : GoString) : unescape (0x22 :: tail) = some ([], tail) := by
  rw [unescape.eq_def]
  simp

theorem unescape_copy (c : Nat) (tail : GoString) (h1 : c ≠ 0x22) (h2 : c ≠ 0x5C) :
    unescape (c :: tail) = (unescape tail).map (fun p => (c :: p.1, p.2)) := by
  rw [unescape.eq_def]
  simp [h1, h2]

theorem unescape_short (e : Nat) (tail : GoString) (h : e ≠ 0x75) :
    unescape (0x5C :: e :: tail)
      = (unescape tail).map (fun p =>
          ((if e = 0x6E then 0x0A else if e = 0x72 then 0x0D else if e = 0x74 then 0x09 else e)
            :: p.1, p.2)) := by
  rw [unescape.eq_def]
  simp only [h, if_false]
  split_ifs <;> simp_all

theorem unescape_long (h1 h2 h3 h4 : Nat) (tail : GoString) :
    unescape (0x5C :: 0x75 :: h1 :: h2 :: h3 :: h4 :: tail)
      = (unescape tail).map (fun p =>
          (if h1 = 0x30 then (unhex h3 * 16 + unhex h4) :: p.1
            else 0xE2 :: 0x80 :: (0xA0 + unhex h4) :: p.1, p.2)) := by
  rw [unescape.eq_def]
  simp only [if_true]
  split_ifs <;> simp_all

theorem unescape_escapeByte (b : Nat) (hb : b < 0x80) (tail : GoString) :
    unescape (escapeByte b ++ tail) = (unescape tail).map (fun p => (b :: p.1, p.2)) := by
  unfold escapeByte
  split_ifs with h1 h2 h3 h4 h5
  · simp [htmlSafe] at h1
    exact unescape_copy b tail (by omega) (by omega)
  · rcases h2 with rfl | rfl <;> simp [unescape_short]
  · subst h3; simp [unescape_short]
  · subst h4; simp [unescape_short]
  · subst h5; simp [unescape_short]
  · have e1 : unhex (hexDigit (b >>> 4)) = b / 16 := by
      rw [Nat.shiftRight_eq_div_pow]
      exact unhex_hexDigit _ (by omega)
    have e2 : unhex (hexDigit (b &&& 0xF)) = b % 16 := by
      rw [and_0x0F]
      exact unhex_hexDigit _ (by omega)
    have e3 : b / 16 * 16 + b % 16 = b := by omega
    simp [unescape_long, e1, e2, e3]


theorem unescape_encodeRunes (s : GoString) :
    ∀ (k : Nat) (keep : Bool) (r : GoString), validRunes k s = true →
      (keep = true → ∀ c ∈ s.take k, 0x80 ≤ c) →
      unescape (encodeRunes k keep s ++ 0x22 :: r)
        = some (if keep = true then s else s.drop k, r) := by
  induction s with
  | nil =>
    intro k keep r hv _
    cases k with
    | zero => simp [encodeRunes, unescape_quote]
    | succ k => simp [validRunes] at hv
  | cons b rest ih =>
    intro k keep r hv hk
    cases k with
    | succ k =>
      have hv1 : validRunes k rest = true := by simpa [validRunes] using hv
      cases keep with
      | true =>
        have hb : 0x80 ≤ b := hk rfl b (by simp)
        have hrest : ∀ c ∈ rest.take k, 0x80 ≤ c := by
          intro c hc
          exact hk rfl c (by simp [hc])
        have e : encodeRunes (k + 1) true (b :: rest) = b :: encodeRunes k true rest := by
          simp [encodeRunes]
        rw [e, List.cons_append, unescape_copy b _ (by omega) (by omega),
          ih k true r hv1 (fun _ => hrest)]
        simp
      | false =>
        have e : encodeRunes (k + 1) false (b :: rest) = encodeRunes k false rest := by
          simp [encodeRunes]
        rw [e, ih k false r hv1 (by simp)]
        simp
    | zero =>
      have hres : (if keep = true then b :: rest else (b :: rest).drop 0) = b :: rest := by
        cases keep <;> simp
      rw [hres]
      by_cases hb : b < 0x80
      · have hv1 : validRunes 0 rest = true := by simpa [validRunes, hb] using hv
        have e : encodeRunes 0 keep (b :: rest) = escapeByte b ++ encodeRunes 0 true rest := by
          simp [encodeRunes, hb]
        rw [e, List.append_assoc, unescape_escapeByte b hb, ih 0 true r hv1 (by simp)]
        simp
      · have hne : ¬ ((decodeRune (b :: rest)).1 = RuneError ∧ (decodeRune (b :: rest)).2 = 1) := by
          intro h
          simp [validRunes, hb, h] at hv
        have hv1 : validRunes ((decodeRune (b :: rest)).2 - 1) rest = true := by
          simpa [validRunes, hb, hne] using hv
        rcases decodeRune_multibyte b rest hb with hbad | ⟨hsz, hcont, h28, h29⟩
        · exact absurd (by rw [hbad]; exact ⟨rfl, rfl⟩) hne
        · by_cases hsep : (decodeRune (b :: rest)).1 = 0x2028 ∨ (decodeRune (b :: rest)).1 = 0x2029
          · have e : encodeRunes 0 keep (b :: rest)
                = [0x5C, 0x75, 0x32, 0x30, 0x32, hexDigit ((decodeRune (b :: rest)).1 &&& 0xF)]
                  ++ encodeRunes ((decodeRune (b :: rest)).2 - 1) false rest := by
              simp [encodeRunes, hb, hne, hsep]
            have hih := ih _ false r hv1 (by simp)
            rw [e]
            simp only [List.cons_append, List.nil_append]
            rw [unescape_long, hih]
            rcases hsep with h | h
            · obtain ⟨hb2, hsz3, rest3, hr⟩ := h28 h
              rw [h, hsz3, hr, hb2]
              simp
              decide
            · obtain ⟨hb2, hsz3, rest3, hr⟩ := h29 h
              rw [h, hsz3, hr, hb2]
              simp
              decide
          · have e : encodeRunes 0 keep (b :: rest)
                = b :: encodeRunes ((decodeRune (b :: rest)).2 - 1) true rest := by
              simp [encodeRunes, hb, hne, hsep]
            rw [e, List.cons_append, unescape_copy b _ (by omega) (by omega),
              ih _ true r hv1 (fun _ => hcont)]
            simp

theorem encodeString_cancel (s s2 r r2 : GoString)
    (hs : validUTF8 s = true) (hs2 : validUTF8 s2 = true)
    (h : encodeString s ++ r = encodeString s2 ++ r2) : s = s2 ∧ r = r2 := by
  have e : ∀ t q : GoString, encodeString t ++ q = 0x22 :: (encodeRunes 0 true t ++ 0x22 :: q) := by
    intro t q
    simp [encodeString]
  rw [e, e] at h
  have h1 := congrArg unescape (List.cons.inj h).2
  rw [unescape_encodeRunes s 0 true r hs (by simp),
    unescape_encodeRunes s2 0 true r2 hs2 (by simp)] at h1
  simpa using h1

theorem joinMembers_cons (m m2 : GoString) (rest : List GoString) :
    joinMembers (m :: m2 :: rest) = m ++ [0x2C] ++ joinMembers (m2 :: rest) := by
  simp [joinMembers]

theorem joinMembers_append_last (ms : List GoString) :
    ∃ pre : GoString, ∀ x : GoString, joinMembers (ms ++ [x]) = pre ++ x := by
  induction ms with
  | nil => exact ⟨[], fun x => by simp [joinMembers]⟩
  | cons m rest ih =>
    obtain ⟨pre, hpre⟩ := ih
    refine ⟨m ++ [0x2C] ++ pre, fun x => ?_⟩
    cases rest with
    | nil =>
      have := hpre x
      simp only [List.nil_append] at this
      simp [joinMembers] at this ⊢
      rw [← this]
    | cons m2 rest2 =>
      rw [List.cons_append, List.cons_append, joinMembers_cons, ← List.cons_append, hpre x]
      simp [List.append_assoc]

theorem document_layout (cfg : GrafanaDatasource) :
    ∃ pre : GoString, ∀ caCert clientCert clientKey : GoString,
      serializedDocument (injectSecrets cfg caCert clientCert clientKey)
        = .ok (pre ++ (encodeString caCert
            ++ (goStr ",\"clientCert\":" ++ (encodeString clientCert
              ++ (goStr ",\"clientKey\":" ++ (encodeString clientKey
                ++ goStr "\x7d\x7d\x7d")))))) := by
  obtain ⟨pre, hpre⟩ :=
    joinMembers_append_last (cfg.Params.map (fun p => member p.1 (encodeParam p.2)))
  refine ⟨goStr "\x7b\"apiVersion\":1,\"datasources\":\x7b" ++ pre
    ++ goStr "\"secureData\":\x7b\"caCert\":", fun caCert clientCert clientKey => ?_⟩
  have k1 : encodeString (goStr "secureData") ++ [0x3A] = goStr "\"secureData\":" := by decide
  have k2 : encodeString (goStr "caCert") ++ [0x3A] = goStr "\"caCert\":" := by decide
  have k3 : [0x2C] ++ encodeString (goStr "clientCert") ++ [0x3A] = goStr ",\"clientCert\":" := by
    decide
  have k4 : [0x2C] ++ encodeString (goStr "clientKey") ++ [0x3A] = goStr ",\"clientKey\":" := by
    decide
  have k5 : goStr "\x7b\"apiVersion\":1,\"datasources\":\x7b"
      = [0x7B] ++ goStr "\"apiVersion\":1" ++ [0x2C] ++ goStr "\"datasources\":" ++ [0x7B] := by
    decide
  have k6 : goStr "\"secureData\":\x7b\"caCert\":"
      = goStr "\"secureData\":" ++ [0x7B] ++ goStr "\"caCert\":" := by decide
  have k7 : goStr "\x7d\x7d\x7d" = [0x7D, 0x7D, 0x7D] := by decide
  rw [k5, k6, k7, ← k1, ← k2, ← k3, ← k4]
  simp only [serializedDocument, jsonMarshal, injectSecrets_eq, marshalDatasource,
    marshalSecureJSONData, encodeObject, hpre, member_apiVersion, member_datasources]
  simp [joinMembers, member, List.append_assoc]

theorem hexDigit_injective (a b : Nat) (ha : a < 16) (hb : b < 16)
    (h : hexDigit a = hexDigit b) : a = b := by
  unfold hexDigit at h
  split_ifs at h <;> omega

theorem sprintfHex_injective (l1 : GoString) :
    ∀ l2 : GoString, (∀ c ∈ l1, c < 256) → (∀ c ∈ l2, c < 256) →
      sprintfHex l1 = sprintfHex l2 → l1 = l2 := by
  induction l1 with
  | nil =>
    intro l2 _ _ h
    cases l2 with
    | nil => rfl
    | cons c rest => simp [sprintfHex] at h
  | cons b rest ih =>
    intro l2 h1 h2 h
    cases l2 with
    | nil => simp [sprintfHex] at h
    | cons c rest2 =>
      simp only [sprintfHex, List.cons.injEq] at h
      obtain ⟨e1, e2, e3⟩ := h
      have hb : b < 256 := h1 b (by simp)
      have hc : c < 256 := h2 c (by simp)
      have d1 := hexDigit_injective _ _ (by omega) (by omega) e1
      have d2 := hexDigit_injective _ _ (by omega) (by omega) e2
      have hbc : b = c := by omega
      rw [hbc, ih rest2 (fun x hx => h1 x (by simp [hx])) (fun x hx => h2 x (by simp [hx])) e3]

theorem md5Sum_bytes (msg : GoString) : ∀ c ∈ md5Sum msg, c < 256 := by
  intro c hc
  simp only [md5Sum, leBytes, List.mem_append, List.mem_cons, List.mem_nil_iff, or_false,
    List.cons_append, List.nil_append] at hc
  omega

/-- C7 (counterexample): two secret triples that differ in exactly one byte of the CA
certificate, `0xFF` against `0xFE`, are serialised to the same document, in which that byte is
the escape of U+FFFD; the fingerprints of the two documents are therefore the same. -/
theorem invalid_bytes_share_fingerprint :
    (([0xFF], goStr "B", goStr "C") : GoString × GoString × GoString)
        ≠ ([0xFE], goStr "B", goStr "C")
      ∧ serializedDocument (injectSecrets scenarioDatasource [0xFF] (goStr "B") (goStr "C"))
        = .ok (goStr ("\x7b\"apiVersion\":1,\"datasources\":\x7b\"host\":\"grafana-ds\","
            ++ "\"tlsEnabled\":true,\"secureData\":\x7b\"caCert\":\"\\ufffd\","
            ++ "\"clientCert\":\"B\",\"clientKey\":\"C\"\x7d\x7d\x7d"))
      ∧ serializedDocument (injectSecrets scenarioDatasource [0xFE] (goStr "B") (goStr "C"))
        = serializedDocument (injectSecrets scenarioDatasource [0xFF] (goStr "B") (goStr "C"))
      ∧ ∀ bytes1 bytes2,
          serializedDocument (injectSecrets scenarioDatasource [0xFF] (goStr "B") (goStr "C"))
            = .ok bytes1 →
          serializedDocument (injectSecrets scenarioDatasource [0xFE] (goStr "B") (goStr "C"))
            = .ok bytes2 →
          hashMark bytes1 = hashMark bytes2 := by
  have e : serializedDocument (injectSecrets scenarioDatasource [0xFE] (goStr "B") (goStr "C"))
      = serializedDocument (injectSecrets scenarioDatasource [0xFF] (goStr "B") (goStr "C")) := by
    simp only [serializedDocument, jsonMarshal, Except.ok.injEq]
    decide
  refine ⟨by decide, ?_, e, ?_⟩
  · simp only [serializedDocument, jsonMarshal, Except.ok.injEq]
    decide
  · intro bytes1 bytes2 h1 h2
    rw [e, h1] at h2
    rw [Except.ok.inj h2]

/-- C7 (amended): for secrets that are valid UTF-8, two triples that differ in any byte of any
of the three secrets are serialised to different documents (each secret is written, escaped,
into its own member of the secure-data section, and the escaping loses nothing); the
fingerprint is the hexadecimal MD5 digest of exactly these bytes, so the fingerprints of the
two documents coincide only if their MD5 digests do. -/
theorem distinct_secrets_distinct_documents (cfg : GrafanaDatasource)
    (caCert clientCert clientKey caCert2 clientCert2 clientKey2 : GoString)
    (v1 : validUTF8 caCert = true) (v2 : validUTF8 clientCert = true)
    (v3 : validUTF8 clientKey = true) (w1 : validUTF8 caCert2 = true)
    (w2 : validUTF8 clientCert2 = true) (w3 : validUTF8 clientKey2 = true)
    (hne : (caCert, clientCert, clientKey) ≠ (caCert2, clientCert2, clientKey2)) :
    serializedDocument (injectSecrets cfg caCert clientCert clientKey)
        ≠ serializedDocument (injectSecrets cfg caCert2 clientCert2 clientKey2)
      ∧ ∀ bytes1 bytes2,
          serializedDocument (injectSecrets cfg caCert clientCert clientKey) = .ok bytes1 →
          serializedDocument (injectSecrets cfg caCert2 clientCert2 clientKey2) = .ok bytes2 →
          bytes1 ≠ bytes2 ∧ (hashMark bytes1 = hashMark bytes2 → md5Sum bytes1 = md5Sum bytes2) := by
  obtain ⟨pre, hpre⟩ := document_layout cfg
  have key : serializedDocument (injectSecrets cfg caCert clientCert clientKey)
      ≠ serializedDocument (injectSecrets cfg caCert2 clientCert2 clientKey2) := by
    intro h
    rw [hpre, hpre] at h
    have h0 := List.append_cancel_left (Except.ok.inj h)
    obtain ⟨e1, h1⟩ := encodeString_cancel _ _ _ _ v1 w1 h0
    obtain ⟨e2, h2⟩ := encodeString_cancel _ _ _ _ v2 w2 (List.append_cancel_left h1)
    obtain ⟨e3, _⟩ := encodeString_cancel _ _ _ _ v3 w3 (List.append_cancel_left h2)
    exact hne (by rw [e1, e2, e3])
  refine ⟨key, fun bytes1 bytes2 h1 h2 => ⟨?_, ?_⟩⟩
  · intro h
    rw [h1, h2, h] at key
    exact key rfl
  · intro h
    exact sprintfHex_injective _ _ (md5Sum_bytes bytes1) (md5Sum_bytes bytes2) h

/-- C7 (amended) at the scenario: replacing the CA certificate `A` by `X` changes the
document. -/
theorem distinct_secrets_distinct_documents_witness :
    serializedDocument (injectSecrets scenarioDatasource (goStr "A") (goStr "B") (goStr "C"))
      ≠ serializedDocument (injectSecrets scenarioDatasource (goStr "X") (goStr "B") (goStr "C")) :=
  (distinct_secrets_distinct_documents scenarioDatasource (goStr "A") (goStr "B") (goStr "C")
    (goStr "X") (goStr "B") (goStr "C") (by decide) (by decide) (by decide) (by decide)
    (by decide) (by decide) (by decide)).1

/-! ## The comparison step on its own -/

theorem index_assignEntry_same (k v : GoString) (entries : List (GoString × GoString)) :
    GoMap.index (some (assignEntry k v entries)) k = v := by
  induction entries with
  | nil => simp [assignEntry, GoMap.index]
  | cons e rest ih =>
    by_cases h : e.1 = k
    · simp [assignEntry, GoMap.index, h]
    · simp only [GoMap.index] at ih
      simp [assignEntry, GoMap.index, h, List.find?_cons]
      exact ih

theorem index_assignEntry_other (k k2 v : GoString) (entries : List (GoString × GoString))
    (hk : k2 ≠ k) :
    GoMap.index (some (assignEntry k v entries)) k2 = GoMap.index (some entries) k2 := by
  induction entries with
  | nil => simp [assignEntry, GoMap.index, List.find?_cons, Ne.symm hk]
  | cons e rest ih =>
    simp only [GoMap.index] at ih
    by_cases h : e.1 = k
    · have h2 : ¬ e.1 = k2 := by rw [h]; exact Ne.symm hk
      simp [assignEntry, GoMap.index, h, List.find?_cons, Ne.symm hk, h2]
    · by_cases h3 : e.1 = k2
      · subst h3
        simp [assignEntry, GoMap.index, h, List.find?_cons]
      · simp [assignEntry, GoMap.index, h, List.find?_cons, h3]
        exact ih

/-- Lines 110-117 on their own: when the `lastConfig` annotation of the stored copy equals
that of the new config map, the copy comes back with the content of the stored config map,
whatever its payload. -/
theorem compareAndReplace_same_fingerprint (newConfig current : ConfigMap)
    (h : current.Annotations.index lastConfig = newConfig.Annotations.index lastConfig) :
    compareAndReplace (some newConfig) (DeepCopy (some current))
      = Outcome.returns (some current, none) := by
  simp [compareAndReplace, DeepCopy, h]

/-- The comparison step at the scenario: the stored payload survives a matching fingerprint. -/
theorem compareAndReplace_same_fingerprint_witness :
    compareAndReplace (some scenarioConfigMap) (DeepCopy (some storedMatching))
      = Outcome.returns (some storedMatching, none) :=
  compareAndReplace_same_fingerprint scenarioConfigMap storedMatching (by decide)

/-- Lines 110-117 on their own: when the fingerprints differ and the stored config map has
both its maps, the copy comes back with `lastConfig` and `datasource.yaml` replaced by those
of the new config map, and with the name, namespace, labels, other annotations and other data
entries of the stored config map. -/
theorem compareAndReplace_replaces_both (newConfig current : ConfigMap)
    (annotations data : List (GoString × GoString))
    (ha : current.Annotations = some annotations) (hd : current.Data = some data)
    (hne : current.Annotations.index lastConfig ≠ newConfig.Annotations.index lastConfig) :
    ∃ result, compareAndReplace (some newConfig) (DeepCopy (some current))
          = Outcome.returns (some result, none)
      ∧ result.Annotations.index lastConfig = newConfig.Annotations.index lastConfig
      ∧ result.Data.index grafanaDatasourceFile = newConfig.Data.index grafanaDatasourceFile
      ∧ result.Name = current.Name ∧ result.Namespace = current.Namespace
      ∧ result.Labels = current.Labels
      ∧ (∀ k, k ≠ lastConfig → result.Annotations.index k = current.Annotations.index k)
      ∧ ∀ k, k ≠ grafanaDatasourceFile → result.Data.index k = current.Data.index k := by
  refine ⟨{ current with
      Annotations := some (assignEntry lastConfig (newConfig.Annotations.index lastConfig)
        annotations)
      Data := some (assignEntry grafanaDatasourceFile
        (newConfig.Data.index grafanaDatasourceFile) data) }, ?_, ?_, ?_, rfl, rfl, rfl, ?_, ?_⟩
  · rw [ha] at hne
    simp [compareAndReplace, DeepCopy, ha, hd, hne, GoMap.assign]
  · exact index_assignEntry_same _ _ _
  · exact index_assignEntry_same _ _ _
  · intro k hk
    rw [ha]
    exact index_assignEntry_other _ _ _ _ hk
  · intro k hk
    rw [hd]
    exact index_assignEntry_other _ _ _ _ hk

/-- The comparison step at the scenario: a stale stored config map gets the new payload and
the new fingerprint. -/
theorem compareAndReplace_replaces_both_witness :
    ∃ result, compareAndReplace (some scenarioConfigMap) (DeepCopy (some storedStale))
          = Outcome.returns (some result, none)
      ∧ result.Annotations.index lastConfig = goStr "908af10bd831651d5527cca3fdfa84ab"
      ∧ result.Data.index grafanaDatasourceFile = scenarioBytes := by
  obtain ⟨result, h1, h2, h3, _⟩ :=
    compareAndReplace_replaces_both scenarioConfigMap storedStale _ _ rfl rfl (by decide)
  exact ⟨result, h1, h2, h3⟩

/-- Lines 110-117 on their own: the step is idempotent; comparing the new config map with the
config map the step just returned changes nothing. -/
theorem compareAndReplace_idempotent (newConfig current result : ConfigMap)
    (h : compareAndReplace (some newConfig) (DeepCopy (some current))
      = Outcome.returns (some result, none)) :
    compareAndReplace (some newConfig) (DeepCopy (some result))
      = Outcome.returns (some result, none) := by
  by_cases heq : current.Annotations.index lastConfig = newConfig.Annotations.index lastConfig
  · rw [compareAndReplace_same_fingerprint newConfig current heq] at h
    simp only [Outcome.returns.injEq, Prod.mk.injEq, Option.some.injEq, and_true] at h
    rw [← h]
    exact compareAndReplace_same_fingerprint newConfig current heq
  · apply compareAndReplace_same_fingerprint
    cases ha : current.Annotations with
    | none =>
      rw [ha] at heq
      simp [compareAndReplace, DeepCopy, ha, heq, GoMap.assign] at h
    | some annotations =>
      cases hd : current.Data with
      | none =>
        rw [ha] at heq
        simp [compareAndReplace, DeepCopy, ha, hd, heq, GoMap.assign] at h
      | some data =>
        obtain ⟨result2, h1, h2, _⟩ :=
          compareAndReplace_replaces_both newConfig current annotations data ha hd heq
        rw [h1] at h
        simp only [Outcome.returns.injEq, Prod.mk.injEq, Option.some.injEq, and_true] at h
        rw [← h]
        exact h2

/-- Idempotence of the comparison step at the scenario. -/
theorem compareAndReplace_idempotent_witness :
    compareAndReplace (some scenarioConfigMap) (DeepCopy (some storedMatching))
      = Outcome.returns (some storedMatching, none) :=
  compareAndReplace_idempotent scenarioConfigMap storedMatching storedMatching (by decide)

/-- Lines 110-117 on their own: a stored config map without annotations (a nil map) makes the
step panic as soon as the new fingerprint is not empty, at the assignment of line 113. -/
theorem compareAndReplace_nil_annotations (newConfig current : ConfigMap)
    (ha : current.Annotations = none)
    (hne : newConfig.Annotations.index lastConfig ≠ []) :
    compareAndReplace (some newConfig) (DeepCopy (some current))
      = Outcome.panics Panic.nilMapAssignment := by
  have h : ¬ ([] : GoString) = newConfig.Annotations.index lastConfig := fun e => hne e.symm
  have hz : GoMap.index none lastConfig = [] := rfl
  simp [compareAndReplace, DeepCopy, ha, GoMap.assign, hz, h]

/-- The panic on a stored config map without annotations, at the scenario. -/
theorem compareAndReplace_nil_annotations_witness :
    compareAndReplace (some scenarioConfigMap) (DeepCopy (some storedWithoutAnnotations))
      = Outcome.panics Panic.nilMapAssignment :=
  compareAndReplace_nil_annotations scenarioConfigMap storedWithoutAnnotations rfl (by decide)

theorem hexDigit_lowercase (n : Nat) (h : n < 16) :
    (48 ≤ hexDigit n ∧ hexDigit n ≤ 57) ∨ (97 ≤ hexDigit n ∧ hexDigit n ≤ 102) := by
  unfold hexDigit
  split_ifs <;> omega

/-- Lines 87-92: the fingerprint is always 32 characters long, each a digit or a lowercase
letter from `a` to `f`. -/
theorem hashMark_is_lowercase_hex (bytesData : GoString) :
    (hashMark bytesData).length = 32
      ∧ ∀ c ∈ hashMark bytesData, (48 ≤ c ∧ c ≤ 57) ∨ (97 ≤ c ∧ c ≤ 102) := by
  refine ⟨hashMark_length bytesData, ?_⟩
  have hex : ∀ l : GoString, ∀ c ∈ sprintfHex l, (48 ≤ c ∧ c ≤ 57) ∨ (97 ≤ c ∧ c ≤ 102) := by
    intro l
    induction l with
    | nil => intro c hc; simp [sprintfHex] at hc
    | cons b rest ih =>
      intro c hc
      simp only [sprintfHex, List.mem_cons] at hc
      rcases hc with rfl | rfl | hc
      · exact hexDigit_lowercase _ (Nat.mod_lt _ (by omega))
      · exact hexDigit_lowercase _ (Nat.mod_lt _ (by omega))
      · exact ih c hc
  exact hex _

end GrafanaOperator
